import Mathlib

/-!
Verification development for a top-down arcade survival shooter
(player, enemies, boss, bullets, coins, health packs, power-ups).

The Python sources (`player.py`, `enemy.py`, `boss.py`, `bullet.py`,
`game.py`, `coin.py`, `healthpack.py`, `powerup.py`) are embedded
shallowly:

* continuous quantities (positions, speeds, damage, health scaling)
  are modelled as exact rationals `ℚ`; integer counters as `ℤ`/`ℕ`;
* the transcendental library functions used by the code
  (`math.sqrt`, `math.cos`, `math.sin`, `math.atan2`, `math.radians`)
  are abstracted as a record `MathFns` of rational-valued functions;
  the only property any theorem assumes about them is `sqrt 0 = 0`,
  which holds for the real functions;
* `pygame.Rect` overlap tests depend on opaque sprite-asset sizes, so
  collision pairs are abstracted as boolean predicates passed to the
  collision-resolution functions;
* calls to `random.*` are abstracted as explicit choice streams
  (functions from a running index);
* Python `set()` membership on entity objects is object identity, so
  enemies carry an explicit identity field `eid` and bullets record
  the identities of enemies they have hit in a `Finset ℕ`;
* rendering, animation-frame bookkeeping and input polling are out of
  scope (spec sections 1 and 6) and are not part of the model.

Module-level constants of the game (`app.WIDTH`, `app.HEIGHT`,
`app.SPAWN_MARGIN`, `app.PUSHBACK_DISTANCE`, ...) are passed to the
embedded functions as parameters; no theorem depends on their values.
-/

/-- Abstraction of the `math` library functions used by the code.
All are `ℚ → ℚ` stand-ins for the real-valued originals. -/
structure MathFns where
  sqrt : ℚ → ℚ
  cos : ℚ → ℚ
  sin : ℚ → ℚ
  atan2 : ℚ → ℚ → ℚ
  radians : ℚ → ℚ

/-- A concrete instance of `MathFns` used by witnesses; it satisfies
`sqrt 0 = 0`, the only property theorems assume. -/
def idMathFns : MathFns :=
  { sqrt := id, cos := id, sin := id, atan2 := fun y x => y + x, radians := id }

/-- `bullet.py`, class `Bullet.__init__` (image/rect fields are
rendering-only and omitted; `hit_enemies` is a set of enemy object
identities, modelled as a `Finset ℕ` of enemy ids). -/
structure Bullet where
  x : ℚ
  y : ℚ
  vx : ℚ
  vy : ℚ
  size : ℚ
  damage : ℚ
  pierce_count : ℕ
  max_pierce : ℕ
  hit_enemies : Finset ℕ
  deriving DecidableEq

/-- `bullet.py`, `Bullet.update`: advance position by velocity. -/
def bulletUpdate (b : Bullet) : Bullet :=
  { b with x := b.x + b.vx, y := b.y + b.vy }

/-- `bullet.py`, `Bullet.can_hit_enemy`: true when the enemy (by
identity) is not in the bullet's hit set. -/
def canHitEnemy (b : Bullet) (eid : ℕ) : Bool :=
  decide (eid ∉ b.hit_enemies)

/-- `player.py`, class `Player` state (animation and facing fields are
rendering-only and omitted). -/
structure Player where
  x : ℚ
  y : ℚ
  speed : ℚ
  invulnerable : Bool
  invulnerable_time : ℤ
  invulnerable_timer : ℤ
  xp : ℕ
  health : ℤ
  level : ℕ
  bullet_speed : ℚ
  bullet_size : ℚ
  bullet_count : ℕ
  shoot_cooldown : ℤ
  shoot_timer : ℤ
  bullets : List Bullet
  bullet_base_damage : ℚ
  bullet_pierce : ℕ
  has_shield : Bool
  shield_timer : ℤ
  original_speed : ℚ
  speed_boost_active : Bool
  speed_boost_timer : ℤ
  damage_multiplier : ℚ
  damage_boost_timer : ℤ
  magnet_active : Bool
  magnet_timer : ℤ
  magnet_radius : ℚ
  deriving DecidableEq

/-- `player.py`, `Player.__init__` at position `(x, y)`;
`player_speed` stands for the module constant `app.PLAYER_SPEED`. -/
def initPlayer (player_speed x y : ℚ) : Player :=
  { x := x, y := y, speed := player_speed,
    invulnerable := false, invulnerable_time := 60, invulnerable_timer := 0,
    xp := 0, health := 5, level := 1,
    bullet_speed := 10, bullet_size := 10, bullet_count := 1,
    shoot_cooldown := 20, shoot_timer := 0, bullets := [],
    bullet_base_damage := 1, bullet_pierce := 0,
    has_shield := false, shield_timer := 0,
    original_speed := player_speed, speed_boost_active := false,
    speed_boost_timer := 0,
    damage_multiplier := 1, damage_boost_timer := 0,
    magnet_active := false, magnet_timer := 0, magnet_radius := 175 }

/-- `player.py`, `Player.take_damage(amount)`. -/
def takeDamage (amount : ℤ) (p : Player) : Player :=
  if p.invulnerable then p
  else if p.has_shield then
    { p with has_shield := false, shield_timer := 0 }
  else
    { p with health := max 0 (p.health - amount),
             invulnerable_timer := p.invulnerable_time,
             invulnerable := true }

/-- `player.py`, `Player.shoot_toward_position`, body of the
`for i in range(self.bullet_count)` loop: the bullet created for slot
`i` (spread of 10 degrees per unit offset around the aim angle). -/
def shootBullet (m : MathFns) (p : Player) (base_angle : ℚ) (i : ℕ) : Bullet :=
  let mid : ℚ := ((p.bullet_count : ℚ) - 1) / 2
  let offset : ℚ := (i : ℚ) - mid
  let spread_rad : ℚ := m.radians (10 * offset)
  let angle : ℚ := base_angle + spread_rad
  { x := p.x, y := p.y,
    vx := m.cos angle * p.bullet_speed,
    vy := m.sin angle * p.bullet_speed,
    size := p.bullet_size,
    damage := p.bullet_base_damage * p.damage_multiplier,
    pierce_count := 0,
    max_pierce := p.bullet_pierce,
    hit_enemies := ∅ }

/-- `player.py`, `Player.shoot_toward_position(tx, ty)`: returns the
player unchanged when `shoot_timer >= shoot_cooldown` (the code's
cooldown guard) or when the target coincides with the player;
otherwise appends `bullet_count` spread bullets and zeroes
`shoot_timer`. -/
def shootTowardPosition (m : MathFns) (tx ty : ℚ) (p : Player) : Player :=
  if p.shoot_timer ≥ p.shoot_cooldown then p
  else
    let dx : ℚ := tx - p.x
    let dy : ℚ := ty - p.y
    let dist : ℚ := m.sqrt (dx ^ 2 + dy ^ 2)
    if dist = 0 then p
    else
      let vx : ℚ := dx / dist * p.bullet_speed
      let vy : ℚ := dy / dist * p.bullet_speed
      let base_angle : ℚ := m.atan2 vy vx
      { p with
        bullets := p.bullets ++ (List.range p.bullet_count).map (shootBullet m p base_angle),
        shoot_timer := 0 }

/-- `player.py`, off-screen test in `Player.update`:
`bullet.y < 0 or bullet.y > app.HEIGHT or bullet.x < 0 or bullet.x > app.WIDTH`. -/
def bulletOffscreen (W H : ℚ) (b : Bullet) : Bool :=
  b.y < 0 || b.y > H || b.x < 0 || b.x > W

/-- `player.py`, the `for bullet in self.bullets` loop of
`Player.update`, including the in-place `self.bullets.remove(bullet)`:
removal during iteration makes the Python iterator skip the element
that shifts into the removed slot, which is modelled by keeping the
same index after an `eraseIdx`. -/
def updateBullets (W H : ℚ) (l : List Bullet) (i : ℕ) : List Bullet :=
  if h : i < l.length then
    let b := bulletUpdate (l.get ⟨i, h⟩)
    let l1 := l.set i b
    if bulletOffscreen W H b then
      updateBullets W H (l1.eraseIdx i) i
    else
      updateBullets W H l1 (i + 1)
  else l
termination_by l.length - i
decreasing_by
· simp only [List.length_eraseIdx, List.length_set, if_pos h]
  omega
· simp only [List.length_set]; omega

/-- `player.py`, `Player.update`, invulnerability-countdown block. -/
def updInvuln (p : Player) : Player :=
  if p.invulnerable then
    let t := p.invulnerable_timer - 1
    if t ≤ 0 then { p with invulnerable_timer := t, invulnerable := false }
    else { p with invulnerable_timer := t }
  else p

/-- `player.py`, `Player.update`, shield-countdown block (two separate
`if` statements in the source: the timer only ticks while the shield
is held, but the flag is cleared whenever the timer is at or below
zero). -/
def updShield (p : Player) : Player :=
  let p1 := if p.has_shield then { p with shield_timer := p.shield_timer - 1 } else p
  if p1.shield_timer ≤ 0 then { p1 with has_shield := false } else p1

/-- `player.py`, `Player.update`, speed-boost-countdown block. -/
def updSpeedBoost (p : Player) : Player :=
  if p.speed_boost_active then
    let t := p.speed_boost_timer - 1
    if t ≤ 0 then
      { p with speed_boost_timer := t, speed_boost_active := false,
               speed := p.original_speed }
    else { p with speed_boost_timer := t }
  else p

/-- `player.py`, `Player.update`, damage-boost-countdown block. -/
def updDamageBoost (p : Player) : Player :=
  if p.damage_multiplier > 1 then
    let t := p.damage_boost_timer - 1
    if t ≤ 0 then { p with damage_boost_timer := t, damage_multiplier := 1 }
    else { p with damage_boost_timer := t }
  else p

/-- `player.py`, `Player.update`, magnet-countdown block. -/
def updMagnet (p : Player) : Player :=
  if p.magnet_active then
    let t := p.magnet_timer - 1
    if t ≤ 0 then { p with magnet_timer := t, magnet_active := false }
    else { p with magnet_timer := t }
  else p

/-- `player.py`, `Player.update` (animation bookkeeping omitted as
rendering-only): invulnerability countdown, bullet advance with
off-screen removal, then the shield / speed-boost / damage-boost /
magnet countdowns, in source order. -/
def playerUpdate (W H : ℚ) (p : Player) : Player :=
  let p1 := updInvuln p
  let p2 := { p1 with bullets := updateBullets W H p1.bullets 0 }
  updMagnet (updDamageBoost (updSpeedBoost (updShield p2)))

/-- `player.py`, `Player.add_xp(amount)`. -/
def addXp (amount : ℕ) (p : Player) : Player :=
  { p with xp := p.xp + amount }

/-- Power-up type tags used by `powerup.py` / `player.py`. -/
inductive PowerupType where
  | shield | speed | damage | magnet
  deriving DecidableEq

/-- `player.py`, `Player.apply_powerup(powerup_type, duration)`. -/
def applyPowerup (ptype : PowerupType) (duration : ℤ) (p : Player) : Player :=
  match ptype with
  | .shield => { p with has_shield := true, shield_timer := duration }
  | .speed => { p with speed_boost_active := true,
                       speed := p.original_speed * (3/2),
                       speed_boost_timer := duration }
  | .damage => { p with damage_multiplier := 2, damage_boost_timer := duration }
  | .magnet => { p with magnet_active := true, magnet_timer := duration }

/-- `enemy.py`, class `Enemy` state. `eid` is the object identity used
by Python's `set` membership in `Bullet.hit_enemies` and by
list-removal; animation and facing fields are rendering-only and
omitted. `max_health = int(base_health * health_multiplier)` (`int()`
truncates; the multiplier is non-negative, so this is the floor). -/
structure Enemy where
  eid : ℕ
  x : ℚ
  y : ℚ
  speed : ℚ
  knockback_dist_remaining : ℚ
  knockback_dx : ℚ
  knockback_dy : ℚ
  base_health : ℚ
  max_health : ℤ
  health : ℚ
  deriving DecidableEq

/-- `enemy.py`, `Enemy.__init__` (the sprite-selecting `enemy_type`
string only picks animation frames and is omitted). -/
def mkEnemy (eid : ℕ) (x y speed mult : ℚ) : Enemy :=
  let base_health : ℚ := 2
  let max_health : ℤ := ⌊base_health * mult⌋
  { eid := eid, x := x, y := y, speed := speed,
    knockback_dist_remaining := 0, knockback_dx := 0, knockback_dy := 0,
    base_health := base_health, max_health := max_health,
    health := (max_health : ℚ) }

/-- `enemy.py`, `Enemy.move_toward_player`: seek the player along the
normalized direction vector; no movement when already coincident. -/
def moveTowardPlayer (m : MathFns) (p : Player) (e : Enemy) : Enemy :=
  let dx : ℚ := p.x - e.x
  let dy : ℚ := p.y - e.y
  let dist : ℚ := m.sqrt (dx ^ 2 + dy ^ 2)
  if dist ≠ 0 then
    { e with x := e.x + dx / dist * e.speed, y := e.y + dy / dist * e.speed }
  else e

/-- `enemy.py`, `Enemy.apply_knockback`; `knock_speed` stands for the
module constant `app.ENEMY_KNOCKBACK_SPEED`. -/
def applyKnockback (knock_speed : ℚ) (e : Enemy) : Enemy :=
  let step : ℚ := min knock_speed e.knockback_dist_remaining
  { e with knockback_dist_remaining := e.knockback_dist_remaining - step,
           x := e.x + e.knockback_dx * step,
           y := e.y + e.knockback_dy * step }

/-- `enemy.py`, `Enemy.update(player)`: knockback when distance
remains, otherwise seek the player. -/
def enemyUpdate (m : MathFns) (knock_speed : ℚ) (p : Player) (e : Enemy) : Enemy :=
  if e.knockback_dist_remaining > 0 then applyKnockback knock_speed e
  else moveTowardPlayer m p e

/-- `enemy.py`, `Enemy.set_knockback(px, py, dist)`: store the
normalized away-from-source direction and the distance budget; leaves
everything unchanged when the enemy sits exactly at the source. -/
def setKnockback (m : MathFns) (px py dist : ℚ) (e : Enemy) : Enemy :=
  let dx : ℚ := e.x - px
  let dy : ℚ := e.y - py
  let length : ℚ := m.sqrt (dx * dx + dy * dy)
  if length ≠ 0 then
    { e with knockback_dx := dx / length, knockback_dy := dy / length,
             knockback_dist_remaining := dist }
  else e

/-- `enemy.py`, `Enemy.take_damage(amount)`: subtract and report
whether health dropped to 0 or below. -/
def enemyTakeDamage (amount : ℚ) (e : Enemy) : Enemy × Bool :=
  let e1 := { e with health := e.health - amount }
  (e1, decide (e1.health ≤ 0))

/-- `boss.py`, class `Boss`: combat-relevant state. The random-drift
movement timers, attack timer and `BossBullet` list are not needed by
any claim here and are omitted; `base_health = 2000`. -/
structure Boss where
  x : ℚ
  y : ℚ
  base_health : ℚ
  health : ℚ
  max_health : ℚ
  speed : ℚ
  deriving DecidableEq

/-- `boss.py`, `Boss.__init__` combat fields. -/
def mkBoss (x y : ℚ) : Boss :=
  { x := x, y := y, base_health := 2000, health := 2000, max_health := 2000,
    speed := 3 }

/-- `boss.py`, `Boss.take_damage(amount)`. -/
def bossTakeDamage (amount : ℚ) (bo : Boss) : Boss × Bool :=
  let b1 := { bo with health := bo.health - amount }
  (b1, decide (b1.health ≤ 0))

/-- `coin.py`, class `Coin` (image/rect omitted). -/
structure Coin where
  x : ℚ
  y : ℚ
  deriving DecidableEq

/-- `healthpack.py`, class `HealthPack` (image/rect omitted). -/
structure HealthPack where
  x : ℚ
  y : ℚ
  deriving DecidableEq

/-- `game.py`, `Game.check_player_enemy_collisions`: an aggregate
per-frame event. `touching e` stands for
`e.rect.colliderect(player.rect)` (sprite geometry is opaque);
`pushback` stands for `app.PUSHBACK_DISTANCE`. -/
def checkPlayerEnemyCollisions (m : MathFns) (pushback : ℚ)
    (touching : Enemy → Bool) (p : Player) (enemies : List Enemy) :
    Player × List Enemy :=
  let collided := enemies.any touching
  if collided then
    if p.has_shield then
      let p1 := { p with has_shield := false, shield_timer := 0 }
      (p1, enemies.map (setKnockback m p1.x p1.y pushback))
    else
      let p1 := takeDamage 1 p
      (p1, enemies.map (setKnockback m p1.x p1.y pushback))
  else (p, enemies)

/-- Result of processing one player bullet against the enemy list in
`Game.check_bullet_enemy_collisions`: the mutated bullet, the enemy
list with in-place damage applied, whether the bullet was queued on
`bullets_to_remove` (the `break`), the identities queued on
`enemies_to_remove`, the coins and health packs dropped, and the
running index into the loot-drop random stream. -/
structure HitResult where
  bullet : Bullet
  enemies : List Enemy
  removed : Bool
  dead : List ℕ
  coins : List Coin
  healthpacks : List HealthPack
  rix : ℕ

/-- `game.py`, inner `for enemy in self.enemies` loop of
`Game.check_bullet_enemy_collisions` for one bullet. `collide b e`
stands for `b.rect.colliderect(e.rect)`; `drop k` stands for the
`k`-th evaluation of `random.randint(1, 45) == 1`. -/
def hitEnemiesLoop (mult : ℚ) (collide : Bullet → Enemy → Bool)
    (drop : ℕ → Bool) :
    Bullet → List Enemy → ℕ → HitResult
  | b, [], rix => ⟨b, [], false, [], [], [], rix⟩
  | b, e :: es, rix =>
    if collide b e && canHitEnemy b e.eid then
      let b1 := { b with hit_enemies := insert e.eid b.hit_enemies }
      let (e1, killed) := enemyTakeDamage (b1.damage * mult) e
      let b2 := { b1 with pierce_count := b1.pierce_count + 1 }
      let coins0 : List Coin := if killed then [⟨e1.x, e1.y⟩] else []
      let hps0 : List HealthPack :=
        if killed then (if drop rix then [⟨e1.x, e1.y⟩] else []) else []
      let dead0 : List ℕ := if killed then [e1.eid] else []
      let rix1 := if killed then rix + 1 else rix
      if b2.pierce_count > b2.max_pierce then
        ⟨b2, e1 :: es, true, dead0, coins0, hps0, rix1⟩
      else
        let r := hitEnemiesLoop mult collide drop b2 es rix1
        ⟨r.bullet, e1 :: r.enemies, r.removed, dead0 ++ r.dead,
         coins0 ++ r.coins, hps0 ++ r.healthpacks, r.rix⟩
    else
      let r := hitEnemiesLoop mult collide drop b es rix
      ⟨r.bullet, e :: r.enemies, r.removed, r.dead, r.coins, r.healthpacks, r.rix⟩

/-- Accumulated result of the outer `for bullet in self.player.bullets`
loop of `Game.check_bullet_enemy_collisions`, before the deferred
removals are applied to the enemy list. -/
structure PassAcc where
  bullets : List Bullet
  enemies : List Enemy
  dead : List ℕ
  coins : List Coin
  healthpacks : List HealthPack
  rix : ℕ

/-- `game.py`, outer loop of `Game.check_bullet_enemy_collisions`:
bullets queued on `bullets_to_remove` are dropped from the resulting
list (the deferred `self.player.bullets.remove(bullet)`). -/
def bulletsLoop (mult : ℚ) (collide : Bullet → Enemy → Bool)
    (drop : ℕ → Bool) :
    List Bullet → List Enemy → ℕ → PassAcc
  | [], es, rix => ⟨[], es, [], [], [], rix⟩
  | b :: bs, es, rix =>
    let r := hitEnemiesLoop mult collide drop b es rix
    let rest := bulletsLoop mult collide drop bs r.enemies r.rix
    ⟨(if r.removed then [] else [r.bullet]) ++ rest.bullets,
     rest.enemies, r.dead ++ rest.dead, r.coins ++ rest.coins,
     r.healthpacks ++ rest.healthpacks, rest.rix⟩

/-- `game.py`, `Game.check_bullet_enemy_collisions`: full pass,
including the deferred `enemies_to_remove` removals (removal is by
object identity, i.e. by `eid`; the game never creates two enemies
with the same identity). -/
def checkBulletEnemyCollisions (mult : ℚ) (collide : Bullet → Enemy → Bool)
    (drop : ℕ → Bool) (bullets : List Bullet) (enemies : List Enemy)
    (rix : ℕ) : PassAcc :=
  let r := bulletsLoop mult collide drop bullets enemies rix
  { r with enemies := r.enemies.filter (fun e => decide (e.eid ∉ r.dead)) }

/-- `game.py`, loop of `Game.check_bullet_boss_collisions` over a copy
of the bullet list (the `bullet in self.player.bullets` and `hasattr`
guards are always true: this pass never removes bullets): damage the
boss once per overlapping bullet; on a kill drop one coin at the boss
position and stop (`break`). Returns the surviving boss (or `none`)
and the coins dropped. -/
def bulletBossLoop (mult : ℚ) (collideBoss : Bullet → Boss → Bool) :
    List Bullet → Boss → Option Boss × List Coin
  | [], bo => (some bo, [])
  | b :: bs, bo =>
    if collideBoss b bo then
      let (bo1, killed) := bossTakeDamage (b.damage * mult) bo
      if killed then (none, [⟨bo1.x, bo1.y⟩])
      else bulletBossLoop mult collideBoss bs bo1
    else bulletBossLoop mult collideBoss bs bo

/-- `game.py`, `Game.check_bullet_boss_collisions` on the
boss-relevant state: returns the new boss reference, the new
`boss_spawned` flag and the coin list after appending any drop. -/
def checkBulletBossCollisions (mult : ℚ) (collideBoss : Bullet → Boss → Bool)
    (bullets : List Bullet) (boss : Option Boss) (boss_spawned : Bool)
    (coins : List Coin) : Option Boss × Bool × List Coin :=
  match boss with
  | none => (none, boss_spawned, coins)
  | some bo =>
    match bulletBossLoop mult collideBoss bullets bo with
    | (some bo1, _) => (some bo1, boss_spawned, coins)
    | (none, dropped) => (none, false, coins ++ dropped)

/-- `game.py`, `Game.check_player_coin_collisions`: each touched coin
grants 1 xp and is removed (removal deferred past the loop). -/
def checkPlayerCoinCollisions (touchingCoin : Coin → Bool)
    (p : Player) (coins : List Coin) : Player × List Coin :=
  (coins.foldl (fun q c => if touchingCoin c then addXp 1 q else q) p,
   coins.filter (fun c => !(touchingCoin c)))

/-- `game.py`, `Game.check_player_healthpack_collisions`: each touched
pack restores 1 health, only below the maximum of 5, and is removed
(removal deferred past the loop). -/
def checkPlayerHealthpackCollisions (touchingHp : HealthPack → Bool)
    (p : Player) (hps : List HealthPack) : Player × List HealthPack :=
  (hps.foldl (fun q hp =>
      if touchingHp hp then
        (if q.health < 5 then { q with health := q.health + 1 } else q)
      else q) p,
   hps.filter (fun hp => !(touchingHp hp)))

/-- `game.py`, body of the `for coin in self.coins` loop of
`Game.attract_coins`: pull one coin toward the player at speed 7 when
it is within the magnet radius and at positive distance. -/
def attractCoin (m : MathFns) (p : Player) (c : Coin) : Coin :=
  let dx : ℚ := p.x - c.x
  let dy : ℚ := p.y - c.y
  let distance : ℚ := m.sqrt (dx ^ 2 + dy ^ 2)
  if distance ≤ p.magnet_radius ∧ 0 < distance then
    { x := c.x + dx / distance * 7, y := c.y + dy / distance * 7 }
  else c

/-- `game.py`, `Game.attract_coins`: no-op unless the magnet power-up
is active. -/
def attractCoins (m : MathFns) (p : Player) (coins : List Coin) : List Coin :=
  if !p.magnet_active then coins
  else coins.map (attractCoin m p)

/-- `game.py`, class `Game` simulation state (display, fonts,
background, the power-up spawner and the upgrade-menu option list are
rendering/UI or unclaimed and omitted). -/
structure GameState where
  player : Player
  enemies : List Enemy
  enemy_spawn_timer : ℕ
  enemy_spawn_interval : ℕ
  enemies_per_spawn : ℕ
  enemy_health_multiplier : ℚ
  coins : List Coin
  healthpacks : List HealthPack
  boss : Option Boss
  boss_spawned : Bool
  should_spawn_boss : Bool
  boss_count : ℕ
  in_level_up_menu : Bool
  game_over : Bool
  deriving DecidableEq

/-- `game.py`, `Game.__init__` followed by `Game.reset_game`: the
starting state of a run (`enemy_spawn_interval = 60` is set in
`__init__` and never reset; the player starts at the screen centre,
`(W // 2, H // 2)`). -/
def initGameState (player_speed : ℚ) (W H : ℤ) : GameState :=
  { player := initPlayer player_speed ((W / 2 : ℤ) : ℚ) ((H / 2 : ℤ) : ℚ),
    enemies := [], enemy_spawn_timer := 0, enemy_spawn_interval := 60,
    enemies_per_spawn := 1, enemy_health_multiplier := 1,
    coins := [], healthpacks := [],
    boss := none, boss_spawned := false, should_spawn_boss := false,
    boss_count := 0, in_level_up_menu := false, game_over := false }

/-- `game.py`, `Game.check_for_level_up`: on crossing
`level * level * 6` xp, increment the level, open the upgrade menu
(the random 4-option sample only feeds the menu UI), bump
`enemies_per_spawn` on even levels, add `0.25` to the enemy health
multiplier while it is at most `4.0`, and flag a boss spawn every 5
levels. -/
def checkForLevelUp (g : GameState) : GameState :=
  let xp_needed : ℕ := g.player.level * g.player.level * 6
  if g.player.xp ≥ xp_needed then
    let player : Player := { g.player with level := g.player.level + 1 }
    let g1 : GameState := { g with player := player, in_level_up_menu := true }
    let g2 : GameState :=
      if player.level % 2 = 0 then
        { g1 with enemies_per_spawn := g1.enemies_per_spawn + 1 }
      else g1
    let g3 : GameState :=
      if g2.enemy_health_multiplier ≤ 4 then
        { g2 with enemy_health_multiplier := g2.enemy_health_multiplier + 1/4 }
      else g2
    if player.level % 5 = 0 then { g3 with should_spawn_boss := true } else g3
  else g

/-- `game.py`, `Game.spawn_boss`: guarded by the upgrade menu; the
`k`-th boss spawned in a run (`boss_count = k` afterwards) gets
`health = max_health = base_health * 1.3 ^ (k - 1)` (the float
literal `1.3` is modelled as the exact rational `13/10`). -/
def spawnBoss (W H : ℤ) (g : GameState) : GameState :=
  if !g.in_level_up_menu then
    let boss_count := g.boss_count + 1
    let b0 := mkBoss ((W / 2 : ℤ) : ℚ) ((H / 2 : ℤ) : ℚ)
    let health := b0.base_health * (13/10 : ℚ) ^ (boss_count - 1)
    let b := { b0 with health := health, max_health := health }
    { g with boss_count := boss_count, boss := some b, boss_spawned := true }
  else g

/-- `game.py`, the two consecutive boss-spawn checks inside
`Game.update` (the second is the duplicated "redundant boss spawn
check"; its `hasattr(self, 'should_spawn_boss')` guard is always
true). -/
def bossSpawnStep (W H : ℤ) (g : GameState) : GameState :=
  let g1 :=
    if g.should_spawn_boss && !g.in_level_up_menu then
      { spawnBoss W H g with should_spawn_boss := false }
    else g
  if g1.should_spawn_boss && !g1.in_level_up_menu then
    { spawnBoss W H g1 with should_spawn_boss := false }
  else g1

/-- One draw from the random stream feeding `Game.spawn_enemies`: the
uniformly chosen screen side and the `random.randint` coordinate along
it (the uniformly chosen enemy-type string only selects sprites and is
rendering-only). -/
structure SpawnChoice where
  side : Fin 4
  coord : ℤ

/-- `game.py`, the edge-placement `if side == ...` ladder of
`Game.spawn_enemies`; `MARGIN` stands for `app.SPAWN_MARGIN`. -/
def spawnPos (W H MARGIN : ℤ) (c : SpawnChoice) : ℚ × ℚ :=
  match c.side with
  | 0 => ((c.coord : ℚ), -(MARGIN : ℚ))
  | 1 => ((c.coord : ℚ), (H : ℚ) + (MARGIN : ℚ))
  | 2 => (-(MARGIN : ℚ), (c.coord : ℚ))
  | 3 => ((W : ℚ) + (MARGIN : ℚ), (c.coord : ℚ))

/-- `game.py`, the inner `for _ in range(self.enemies_per_spawn)`
batch loop of `Game.spawn_enemies`: build `n` enemies, drawing from
the stream at consecutive indices; the running index doubles as the
fresh object identity of each enemy. -/
def spawnBatch (W H MARGIN : ℤ) (enemy_speed : ℚ) (rng : ℕ → SpawnChoice)
    (mult : ℚ) : ℕ → ℕ → List Enemy
  | 0, _ => []
  | n + 1, rix =>
    let c := rng rix
    let pos := spawnPos W H MARGIN c
    mkEnemy rix pos.1 pos.2 enemy_speed mult ::
      spawnBatch W H MARGIN enemy_speed rng mult n (rix + 1)

/-- Timer/enemy-list/stream-index fragment threaded through
`Game.spawn_enemies`. -/
structure SpawnSt where
  timer : ℕ
  enemies : List Enemy
  rix : ℕ

/-- `game.py`, the outer `for _ in range(self.enemies_per_spawn)` loop
of `Game.spawn_enemies`: each iteration increments the spawn timer by
one and, when it reaches the interval, zeroes it and appends a batch
of `eps` enemies. -/
def spawnSteps (W H MARGIN : ℤ) (enemy_speed : ℚ) (rng : ℕ → SpawnChoice)
    (interval eps : ℕ) (mult : ℚ) : ℕ → SpawnSt → SpawnSt
  | 0, s => s
  | n + 1, s =>
    let timer1 := s.timer + 1
    if timer1 ≥ interval then
      spawnSteps W H MARGIN enemy_speed rng interval eps mult n
        ⟨0, s.enemies ++ spawnBatch W H MARGIN enemy_speed rng mult eps s.rix,
         s.rix + eps⟩
    else
      spawnSteps W H MARGIN enemy_speed rng interval eps mult n
        ⟨timer1, s.enemies, s.rix⟩

/-- `game.py`, `Game.spawn_enemies`: suppressed entirely while a boss
is active; otherwise runs the (doubly nested) spawn loop with the
outer loop iterating `enemies_per_spawn` times; `enemy_speed` stands
for `app.DEFAULT_ENEMY_SPEED` (the `Enemy` constructor's default).
Returns the new state and the advanced stream index. -/
def spawnEnemies (W H MARGIN : ℤ) (enemy_speed : ℚ) (rng : ℕ → SpawnChoice)
    (g : GameState) (rix : ℕ) : GameState × ℕ :=
  if !g.boss_spawned then
    let s := spawnSteps W H MARGIN enemy_speed rng g.enemy_spawn_interval
      g.enemies_per_spawn g.enemy_health_multiplier g.enemies_per_spawn
      ⟨g.enemy_spawn_timer, g.enemies, rix⟩
    ({ g with enemy_spawn_timer := s.timer, enemies := s.enemies }, s.rix)
  else (g, rix)

theorem takeDamage_x (a : ℤ) (p : Player) : (takeDamage a p).x = p.x := by
  unfold takeDamage; split_ifs <;> rfl

theorem takeDamage_y (a : ℤ) (p : Player) : (takeDamage a p).y = p.y := by
  unfold takeDamage; split_ifs <;> rfl

/-- C5: `Player.take_damage(amount)` satisfies the spec's case
analysis: a no-op while invulnerable; with an active shield it only
clears the shield and its timer (health unchanged, invulnerability not
triggered); otherwise it floors `health - amount` at 0 and arms the
invulnerability flag with its full countdown window. -/
theorem take_damage_case_analysis (p : Player) (a : ℤ) :
    (p.invulnerable = true → takeDamage a p = p) ∧
    (p.invulnerable = false → p.has_shield = true →
      takeDamage a p = { p with has_shield := false, shield_timer := 0 }) ∧
    (p.invulnerable = false → p.has_shield = false →
      takeDamage a p =
        { p with health := max 0 (p.health - a),
                 invulnerable_timer := p.invulnerable_time,
                 invulnerable := true }) := by
  refine ⟨fun h => ?_, fun h1 h2 => ?_, fun h1 h2 => ?_⟩
  · simp [takeDamage, h]
  · simp [takeDamage, h1, h2]
  · simp [takeDamage, h1, h2]

/-- Witness for C5 at a fresh player (neither invulnerable nor
shielded): one point of damage drops health from 5 to 4 and arms the
60-tick invulnerability window. -/
theorem take_damage_case_analysis_witness :
    takeDamage 1 (initPlayer 5 0 0) =
      { initPlayer 5 0 0 with health := 4, invulnerable_timer := 60,
                              invulnerable := true } := by
  have h := (take_damage_case_analysis (initPlayer 5 0 0) 1).2.2 rfl rfl
  rw [h]; decide

/-- C9: every zero-distance normalization in the code is an explicit
no-op (guarded before the division): shooting at the player's own
position fires nothing; `Enemy.set_knockback` from a coincident source
changes nothing; seeking with the enemy on top of the player moves
nothing; coin attraction skips coins at zero distance. The only
assumption on the abstracted `math.sqrt` is `sqrt 0 = 0`. -/
theorem zero_distance_normalization_noops (m : MathFns) (h0 : m.sqrt 0 = 0) :
    (∀ (p : Player) (tx ty : ℚ), tx = p.x → ty = p.y →
        shootTowardPosition m tx ty p = p) ∧
    (∀ (e : Enemy) (px py d : ℚ), e.x = px → e.y = py →
        setKnockback m px py d e = e) ∧
    (∀ (p : Player) (e : Enemy), e.x = p.x → e.y = p.y →
        (moveTowardPlayer m p e).x = e.x ∧ (moveTowardPlayer m p e).y = e.y) ∧
    (∀ (p : Player) (c : Coin), c.x = p.x → c.y = p.y →
        attractCoin m p c = c) := by
  refine ⟨?_, ?_, ?_, ?_⟩
  · intro p tx ty hx hy
    subst hx; subst hy
    simp [shootTowardPosition, h0]
  · intro e px py d hx hy
    subst hx; subst hy
    simp [setKnockback, h0]
  · intro p e hx hy
    simp [moveTowardPlayer, hx, hy, h0]
  · intro p c hx hy
    simp [attractCoin, hx, hy, h0]

/-- Witness for C9: concrete degenerate inputs for each of the four
normalizations, with the identity standing in for `sqrt`. -/
theorem zero_distance_normalization_noops_witness :
    shootTowardPosition idMathFns 3 4 (initPlayer 5 3 4) = initPlayer 5 3 4 ∧
    setKnockback idMathFns 1 2 50 (mkEnemy 0 1 2 1 1) = mkEnemy 0 1 2 1 1 ∧
    (moveTowardPlayer idMathFns (initPlayer 5 3 4) (mkEnemy 7 3 4 1 1)).x = 3 ∧
    attractCoin idMathFns (initPlayer 5 3 4) ⟨3, 4⟩ = (⟨3, 4⟩ : Coin) := by
  have h := zero_distance_normalization_noops idMathFns rfl
  exact ⟨h.1 _ 3 4 rfl rfl, h.2.1 _ 1 2 50 rfl rfl,
    (h.2.2.1 (initPlayer 5 3 4) (mkEnemy 7 3 4 1 1) rfl rfl).1, h.2.2.2 _ _ rfl rfl⟩

/-- C7: player-versus-enemy contact is one aggregate event per frame:
as soon as any enemy touches the player, knockback away from the
player's current position (with the fixed push distance) is applied to
every enemy in the collection, and either the shield is consumed with
no health loss (invulnerability untouched) or `take_damage(1)` is
applied exactly once. -/
theorem player_enemy_contact_aggregate (m : MathFns) (pushback : ℚ)
    (touching : Enemy → Bool) (p : Player) (enemies : List Enemy)
    (hc : enemies.any touching = true) :
    (checkPlayerEnemyCollisions m pushback touching p enemies).2 =
      enemies.map (setKnockback m p.x p.y pushback) ∧
    (p.has_shield = true →
      (checkPlayerEnemyCollisions m pushback touching p enemies).1 =
        { p with has_shield := false, shield_timer := 0 }) ∧
    (p.has_shield = false →
      (checkPlayerEnemyCollisions m pushback touching p enemies).1 =
        takeDamage 1 p) := by
  by_cases hs : p.has_shield <;>
    simp [checkPlayerEnemyCollisions, hc, hs, takeDamage_x, takeDamage_y]

/-- Witness for C7: a single touching enemy, an unshielded player at
(400, 300): the player takes the damage path and the enemy receives
the knockback. -/
theorem player_enemy_contact_aggregate_witness :
    (checkPlayerEnemyCollisions idMathFns 10 (fun _ => true)
        (initPlayer 5 400 300) [mkEnemy 0 400 290 1 1]).1 =
      takeDamage 1 (initPlayer 5 400 300) ∧
    (checkPlayerEnemyCollisions idMathFns 10 (fun _ => true)
        (initPlayer 5 400 300) [mkEnemy 0 400 290 1 1]).2 =
      [setKnockback idMathFns 400 300 10 (mkEnemy 0 400 290 1 1)] := by
  have h := player_enemy_contact_aggregate idMathFns 10 (fun _ => true)
    (initPlayer 5 400 300) [mkEnemy 0 400 290 1 1] rfl
  exact ⟨h.2.2 rfl, by simpa using h.1⟩

/-- C8: when the pending flag is set and the upgrade menu is closed,
the two consecutive spawn checks in `Game.update` spawn exactly one
boss (the duplicated check is dead code): `boss_count` rises by
exactly 1, and the boss spawned as number `k = boss_count + 1` carries
`health = max_health = base_health * 1.3 ^ (k - 1)`. -/
theorem boss_spawn_once_and_scaling (W H : ℤ) (g : GameState)
    (hf : g.should_spawn_boss = true) (hm : g.in_level_up_menu = false) :
    ∃ b : Boss,
      (bossSpawnStep W H g).boss = some b ∧
      (bossSpawnStep W H g).boss_count = g.boss_count + 1 ∧
      (bossSpawnStep W H g).should_spawn_boss = false ∧
      (bossSpawnStep W H g).boss_spawned = true ∧
      b.base_health = 2000 ∧
      b.health = 2000 * (13/10 : ℚ) ^ g.boss_count ∧
      b.max_health = b.health := by
  refine ⟨{ mkBoss ((W / 2 : ℤ) : ℚ) ((H / 2 : ℤ) : ℚ) with
      health := 2000 * (13/10 : ℚ) ^ g.boss_count,
      max_health := 2000 * (13/10 : ℚ) ^ g.boss_count }, ?_, ?_, ?_, ?_, ?_, ?_, ?_⟩ <;>
    simp [bossSpawnStep, spawnBoss, mkBoss, hf, hm]

/-- Witness for C8: from the initial state with a pending spawn flag,
the first boss appears with `health = 2000 * 1.3 ^ 0`. -/
theorem boss_spawn_once_and_scaling_witness :
    ∃ b : Boss,
      (bossSpawnStep 800 600
        { initGameState 5 800 600 with should_spawn_boss := true }).boss = some b ∧
      (bossSpawnStep 800 600
        { initGameState 5 800 600 with should_spawn_boss := true }).boss_count =
        { initGameState 5 800 600 with should_spawn_boss := true }.boss_count + 1 ∧
      (bossSpawnStep 800 600
        { initGameState 5 800 600 with should_spawn_boss := true }).should_spawn_boss = false ∧
      (bossSpawnStep 800 600
        { initGameState 5 800 600 with should_spawn_boss := true }).boss_spawned = true ∧
      b.base_health = 2000 ∧
      b.health = 2000 * (13/10 : ℚ) ^
        { initGameState 5 800 600 with should_spawn_boss := true }.boss_count ∧
      b.max_health = b.health :=
  boss_spawn_once_and_scaling 800 600
    { initGameState 5 800 600 with should_spawn_boss := true } rfl rfl

theorem checkForLevelUp_mult (g : GameState) :
    (checkForLevelUp g).enemy_health_multiplier = g.enemy_health_multiplier ∨
    (g.enemy_health_multiplier ≤ 4 ∧
      (checkForLevelUp g).enemy_health_multiplier =
        g.enemy_health_multiplier + 1/4) := by
  simp only [checkForLevelUp]
  split_ifs <;> simp_all

/-- Reachability of the difficulty fragment of a run: a run starts at
`initGameState`; `Game.check_for_level_up` is the only operation in
the sources that writes `enemy_health_multiplier` (it is otherwise
only read, by `Game.spawn_enemies`, and reset by `Game.reset_game`
when a new run starts), which the `untouched` constructor captures. -/
inductive MultReach (ps : ℚ) (W H : ℤ) : GameState → Prop
  | init : MultReach ps W H (initGameState ps W H)
  | levelUp (g : GameState) : MultReach ps W H g →
      MultReach ps W H (checkForLevelUp g)
  | untouched (g g' : GameState) : MultReach ps W H g →
      g'.enemy_health_multiplier = g.enemy_health_multiplier →
      MultReach ps W H g'

/-- Concrete run used to show the multiplier attains 4.25: grant a
large pile of xp once, then level up thirteen times. -/
def multTrace : ℕ → GameState
  | 0 => { initGameState 5 800 600 with
           player := addXp 10000 (initGameState 5 800 600).player }
  | n + 1 => checkForLevelUp (multTrace n)

theorem multTrace_reach (n : ℕ) : MultReach 5 800 600 (multTrace n) := by
  induction n with
  | zero => exact MultReach.untouched _ _ MultReach.init rfl
  | succ n ih => exact MultReach.levelUp _ ih

/-- C10: in every reachable state of a run the enemy health multiplier
lies in `[1, 4.25]`; a level-up never decreases it; and `4.25` is
actually attained (one increment past the `<= 4.0` guard). -/
theorem enemy_health_multiplier_bounds :
    (∀ (ps : ℚ) (W H : ℤ) (g : GameState), MultReach ps W H g →
        1 ≤ g.enemy_health_multiplier ∧ g.enemy_health_multiplier ≤ 17/4) ∧
    (∀ g : GameState,
        g.enemy_health_multiplier ≤ (checkForLevelUp g).enemy_health_multiplier) ∧
    (∃ g : GameState, MultReach 5 800 600 g ∧
        g.enemy_health_multiplier = 17/4) := by
  refine ⟨?_, ?_, ?_⟩
  · intro ps W H g hg
    induction hg with
    | init => exact ⟨le_refl 1, by norm_num [initGameState]⟩
    | levelUp g hg ih =>
      rcases checkForLevelUp_mult g with h | ⟨h4, h⟩
      · rw [h]; exact ih
      · rw [h]; exact ⟨by linarith [ih.1], by linarith⟩
    | untouched g g' hg hm ih => rw [hm]; exact ih
  · intro g
    rcases checkForLevelUp_mult g with h | ⟨h4, h⟩
    · rw [h]
    · rw [h]; linarith
  · refine ⟨multTrace 13, multTrace_reach 13, ?_⟩
    norm_num [multTrace, checkForLevelUp, initGameState, initPlayer, addXp]

/-- Witness for C10: the bounds hold at the initial state. -/
theorem enemy_health_multiplier_bounds_witness :
    1 ≤ (initGameState 5 800 600).enemy_health_multiplier ∧
    (initGameState 5 800 600).enemy_health_multiplier ≤ 17/4 :=
  enemy_health_multiplier_bounds.1 5 800 600 _ MultReach.init

theorem updInvuln_health (p : Player) : (updInvuln p).health = p.health := by
  unfold updInvuln; dsimp only; split_ifs <;> rfl

theorem updShield_health (p : Player) : (updShield p).health = p.health := by
  unfold updShield; dsimp only; split_ifs <;> rfl

theorem updSpeedBoost_health (p : Player) :
    (updSpeedBoost p).health = p.health := by
  unfold updSpeedBoost; dsimp only; split_ifs <;> rfl

theorem updDamageBoost_health (p : Player) :
    (updDamageBoost p).health = p.health := by
  unfold updDamageBoost; dsimp only; split_ifs <;> rfl

theorem updMagnet_health (p : Player) : (updMagnet p).health = p.health := by
  unfold updMagnet; dsimp only; split_ifs <;> rfl

theorem playerUpdate_health (W H : ℚ) (p : Player) :
    (playerUpdate W H p).health = p.health := by
  unfold playerUpdate
  rw [updMagnet_health, updDamageBoost_health, updSpeedBoost_health,
    updShield_health]
  exact updInvuln_health p

theorem shootTowardPosition_health (m : MathFns) (tx ty : ℚ) (p : Player) :
    (shootTowardPosition m tx ty p).health = p.health := by
  simp only [shootTowardPosition]
  split_ifs <;> rfl

theorem applyPowerup_health (t : PowerupType) (d : ℤ) (p : Player) :
    (applyPowerup t d p).health = p.health := by
  cases t <;> rfl

theorem takeDamage_health_bounds (a : ℤ) (p : Player) (ha : 0 ≤ a)
    (h0 : 0 ≤ p.health) (h5 : p.health ≤ 5) :
    0 ≤ (takeDamage a p).health ∧ (takeDamage a p).health ≤ 5 := by
  unfold takeDamage
  split_ifs
  · exact ⟨h0, h5⟩
  · exact ⟨h0, h5⟩
  · exact ⟨le_max_left _ _, max_le (by norm_num) (by omega)⟩

theorem foldl_preserves {α β : Type} (P : α → Prop) (f : α → β → α)
    (hf : ∀ a b, P a → P (f a b)) :
    ∀ (l : List β) (a : α), P a → P (l.foldl f a) := by
  intro l
  induction l with
  | nil => intro a ha; exact ha
  | cons b l ih => intro a ha; exact ih _ (hf a b ha)

theorem healthpackCollisions_health_bounds (touchingHp : HealthPack → Bool)
    (hps : List HealthPack) (p : Player)
    (h0 : 0 ≤ p.health) (h5 : p.health ≤ 5) :
    0 ≤ (checkPlayerHealthpackCollisions touchingHp p hps).1.health ∧
    (checkPlayerHealthpackCollisions touchingHp p hps).1.health ≤ 5 := by
  refine foldl_preserves (fun q : Player => 0 ≤ q.health ∧ q.health ≤ 5)
    _ ?_ hps p ⟨h0, h5⟩
  intro q hp hq
  by_cases ht : touchingHp hp <;> by_cases hh : q.health < 5 <;>
    simp [ht, hh] <;> omega

theorem playerEnemyCollisions_health_bounds (m : MathFns) (pushback : ℚ)
    (touching : Enemy → Bool) (p : Player) (enemies : List Enemy)
    (h0 : 0 ≤ p.health) (h5 : p.health ≤ 5) :
    0 ≤ (checkPlayerEnemyCollisions m pushback touching p enemies).1.health ∧
    (checkPlayerEnemyCollisions m pushback touching p enemies).1.health ≤ 5 := by
  unfold checkPlayerEnemyCollisions
  dsimp only
  split_ifs
  · exact ⟨h0, h5⟩
  · exact takeDamage_health_bounds 1 p (by norm_num) h0 h5
  · exact ⟨h0, h5⟩

/-- Reachability of the player state under the simulation operations
that read or write `health`: construction, the `take_damage` call
sites (the amount is 1 on enemy and boss contact and 2 for boss
bullets and their poison ticks, always non-negative, generalized here
to any non-negative amount), health-pack pickup, the per-frame
`Player.update`, shooting, power-up application, xp gain, the
aggregate player-enemy contact event, and input-driven movement. -/
inductive PReach (ps x0 y0 : ℚ) : Player → Prop
  | init : PReach ps x0 y0 (initPlayer ps x0 y0)
  | damage (p : Player) (a : ℤ) : 0 ≤ a → PReach ps x0 y0 p →
      PReach ps x0 y0 (takeDamage a p)
  | heal (p : Player) (touchingHp : HealthPack → Bool)
      (hps : List HealthPack) : PReach ps x0 y0 p →
      PReach ps x0 y0 (checkPlayerHealthpackCollisions touchingHp p hps).1
  | upd (p : Player) (W H : ℚ) : PReach ps x0 y0 p →
      PReach ps x0 y0 (playerUpdate W H p)
  | shoot (p : Player) (m : MathFns) (tx ty : ℚ) : PReach ps x0 y0 p →
      PReach ps x0 y0 (shootTowardPosition m tx ty p)
  | power (p : Player) (t : PowerupType) (d : ℤ) : PReach ps x0 y0 p →
      PReach ps x0 y0 (applyPowerup t d p)
  | xpgain (p : Player) (n : ℕ) : PReach ps x0 y0 p →
      PReach ps x0 y0 (addXp n p)
  | contact (p : Player) (m : MathFns) (pushback : ℚ)
      (touching : Enemy → Bool) (enemies : List Enemy) : PReach ps x0 y0 p →
      PReach ps x0 y0 (checkPlayerEnemyCollisions m pushback touching p enemies).1
  | moved (p : Player) (x y : ℚ) : PReach ps x0 y0 p →
      PReach ps x0 y0 { p with x := x, y := y }

/-- C4: in every reachable player state, health stays inside `[0, 5]`:
`take_damage` floors health at 0 (and every call site passes a
non-negative amount), and the health-pack pickup heals only strictly
below the maximum of 5. -/
theorem player_health_in_range (ps x0 y0 : ℚ) (p : Player)
    (hp : PReach ps x0 y0 p) : 0 ≤ p.health ∧ p.health ≤ 5 := by
  induction hp with
  | init => exact ⟨by norm_num [initPlayer], by norm_num [initPlayer]⟩
  | damage p a ha _ ih => exact takeDamage_health_bounds a p ha ih.1 ih.2
  | heal p t hps _ ih =>
    exact healthpackCollisions_health_bounds t hps p ih.1 ih.2
  | upd p W H _ ih => rw [playerUpdate_health]; exact ih
  | shoot p m tx ty _ ih => rw [shootTowardPosition_health]; exact ih
  | power p t d _ ih => rw [applyPowerup_health]; exact ih
  | xpgain p n _ ih => exact ih
  | contact p m pushback touching enemies _ ih =>
    exact playerEnemyCollisions_health_bounds m pushback touching p enemies
      ih.1 ih.2
  | moved p x y _ ih => exact ih

/-- Witness for C4: the bounds hold at the freshly constructed
player. -/
theorem player_health_in_range_witness :
    0 ≤ (initPlayer 5 0 0).health ∧ (initPlayer 5 0 0).health ≤ 5 :=
  player_health_in_range 5 0 0 _ PReach.init

theorem updInvuln_shoot_timer (p : Player) :
    (updInvuln p).shoot_timer = p.shoot_timer := by
  unfold updInvuln; dsimp only; split_ifs <;> rfl

theorem updShield_shoot_timer (p : Player) :
    (updShield p).shoot_timer = p.shoot_timer := by
  unfold updShield; dsimp only; split_ifs <;> rfl

theorem updSpeedBoost_shoot_timer (p : Player) :
    (updSpeedBoost p).shoot_timer = p.shoot_timer := by
  unfold updSpeedBoost; dsimp only; split_ifs <;> rfl

theorem updDamageBoost_shoot_timer (p : Player) :
    (updDamageBoost p).shoot_timer = p.shoot_timer := by
  unfold updDamageBoost; dsimp only; split_ifs <;> rfl

theorem updMagnet_shoot_timer (p : Player) :
    (updMagnet p).shoot_timer = p.shoot_timer := by
  unfold updMagnet; dsimp only; split_ifs <;> rfl

theorem playerUpdate_shoot_timer (W H : ℚ) (p : Player) :
    (playerUpdate W H p).shoot_timer = p.shoot_timer := by
  unfold playerUpdate
  rw [updMagnet_shoot_timer, updDamageBoost_shoot_timer,
    updSpeedBoost_shoot_timer, updShield_shoot_timer]
  exact updInvuln_shoot_timer p

/-- C1 (defect demonstration): the shooting cooldown is not enforced.
`shoot_timer` starts at 0 and is never advanced — in particular
`Player.update` leaves it unchanged — and the guard in
`shoot_toward_position` returns (rather than fires) when
`shoot_timer >= shoot_cooldown`. Consequently every call made while
`shoot_timer < shoot_cooldown` — including a call 0 ticks after the
previous shot, which the claim requires to be a no-op — appends
`bullet_count` further bullets and re-zeroes the timer; and a state
with `shoot_timer >= shoot_cooldown` could never shoot at all. -/
theorem shoot_cooldown_not_enforced :
    (∀ (m : MathFns) (tx ty : ℚ) (p : Player),
        p.shoot_timer < p.shoot_cooldown →
        m.sqrt ((tx - p.x) ^ 2 + (ty - p.y) ^ 2) ≠ 0 →
        (shootTowardPosition m tx ty p).bullets.length =
          p.bullets.length + p.bullet_count ∧
        (shootTowardPosition m tx ty p).shoot_timer = 0) ∧
    (∀ (W H : ℚ) (p : Player),
        (playerUpdate W H p).shoot_timer = p.shoot_timer) ∧
    (∀ (m : MathFns) (tx ty : ℚ) (p : Player),
        p.shoot_timer ≥ p.shoot_cooldown → shootTowardPosition m tx ty p = p) := by
  refine ⟨?_, playerUpdate_shoot_timer, ?_⟩
  · intro m tx ty p ht hd
    rw [shootTowardPosition, if_neg (by omega), if_neg hd]
    simp
  · intro m tx ty p ht
    rw [shootTowardPosition, if_pos ht]

/-- Witness for C1: a fresh player (timer 0, cooldown 20) fires on a
call made inside the cooldown window, appending its one bullet. -/
theorem shoot_cooldown_not_enforced_witness :
    (initPlayer 5 0 0).shoot_timer < (initPlayer 5 0 0).shoot_cooldown ∧
    (shootTowardPosition idMathFns 10 0 (initPlayer 5 0 0)).bullets.length =
      (initPlayer 5 0 0).bullets.length + (initPlayer 5 0 0).bullet_count := by
  refine ⟨by norm_num [initPlayer], ?_⟩
  exact (shoot_cooldown_not_enforced.1 idMathFns 10 0 (initPlayer 5 0 0)
    (by norm_num [initPlayer]) (by norm_num [initPlayer, idMathFns])).1

/-- C2 counterexample: `check_bullet_boss_collisions` has no hit
marking and no pierce accounting, so the very same damage-1 bullet,
still overlapping the boss on the next frame, damages it again: two
passes take the boss from 2000 to 1998 health. Under the claim, a
player bullet damages the boss at most once, which would leave at
least 1999. -/
theorem bullet_boss_double_damage_counterexample :
    (checkBulletBossCollisions 1 (fun _ _ => true)
        [{ x := 0, y := 0, vx := 0, vy := 0, size := 10, damage := 1,
           pierce_count := 0, max_pierce := 0, hit_enemies := ∅ }]
        (checkBulletBossCollisions 1 (fun _ _ => true)
          [{ x := 0, y := 0, vx := 0, vy := 0, size := 10, damage := 1,
             pierce_count := 0, max_pierce := 0, hit_enemies := ∅ }]
          (some (mkBoss 0 0)) true []).1 true []).1 =
      some { mkBoss 0 0 with health := 1998 } := by
  norm_num [checkBulletBossCollisions, bulletBossLoop, bossTakeDamage, mkBoss]

theorem bulletBossLoop_spec (mult : ℚ) (collideBoss : Bullet → Boss → Bool)
    (hgeom : ∀ (b : Bullet) (bo1 bo2 : Boss), bo1.x = bo2.x → bo1.y = bo2.y →
      collideBoss b bo1 = collideBoss b bo2) :
    ∀ (bullets : List Bullet) (bo : Boss),
      (∀ bo1, (bulletBossLoop mult collideBoss bullets bo).1 = some bo1 →
        bo1.x = bo.x ∧ bo1.y = bo.y ∧
        bo1.health = bo.health -
          ((bullets.filter (fun b => collideBoss b bo)).map
            (fun b => b.damage * mult)).sum ∧
        (bulletBossLoop mult collideBoss bullets bo).2 = []) ∧
      ((bulletBossLoop mult collideBoss bullets bo).1 = none →
        (bulletBossLoop mult collideBoss bullets bo).2 = [⟨bo.x, bo.y⟩]) := by
  intro bullets
  induction bullets with
  | nil =>
    intro bo
    constructor
    · intro bo1 h
      simp only [bulletBossLoop, Option.some.injEq] at h
      subst h
      simp [bulletBossLoop]
    · intro h
      simp [bulletBossLoop] at h
  | cons b bs ih =>
    intro bo
    by_cases hcb : collideBoss b bo = true
    · by_cases hk : bo.health - b.damage * mult ≤ 0
      · constructor
        · intro bo1 h
          simp [bulletBossLoop, hcb, bossTakeDamage, hk] at h
        · intro _
          simp [bulletBossLoop, hcb, bossTakeDamage, hk]
      · have hstep : bulletBossLoop mult collideBoss (b :: bs) bo =
            bulletBossLoop mult collideBoss bs
              { bo with health := bo.health - b.damage * mult } := by
          simp [bulletBossLoop, hcb, bossTakeDamage, hk]
        have hfilter :
            bs.filter (fun b' => collideBoss b'
              { bo with health := bo.health - b.damage * mult }) =
            bs.filter (fun b' => collideBoss b' bo) := by
          apply List.filter_congr
          intro b' _
          exact hgeom b' _ _ rfl rfl
        constructor
        · intro bo1 h
          rw [hstep] at h
          obtain ⟨hx, hy, hh, hc⟩ :=
            (ih { bo with health := bo.health - b.damage * mult }).1 bo1 h
          rw [hstep]
          refine ⟨hx, hy, ?_, hc⟩
          rw [hh, hfilter]
          simp [List.filter_cons, hcb]
          ring
        · intro h
          rw [hstep] at h ⊢
          exact (ih _).2 h
    · have hcb' : collideBoss b bo = false := by
        simp only [Bool.not_eq_true] at hcb; exact hcb
      have hstep : bulletBossLoop mult collideBoss (b :: bs) bo =
          bulletBossLoop mult collideBoss bs bo := by
        simp [bulletBossLoop, hcb']
      constructor
      · intro bo1 h
        rw [hstep] at h
        obtain ⟨hx, hy, hh, hc⟩ := (ih bo).1 bo1 h
        rw [hstep]
        refine ⟨hx, hy, ?_, hc⟩
        rw [hh]
        simp [List.filter_cons, hcb']
      · intro h
        rw [hstep] at h ⊢
        exact (ih bo).2 h

/-- C2 amended: bullet-versus-boss resolution does NOT reuse the
bullet-versus-enemy damage model: there is no hit marking, no pierce
accounting and no bullet removal, so each bullet overlapping the boss
damages it once per pass (by damage × damage_multiplier) and damages
it again on later frames while it keeps overlapping. What does hold:
while the boss survives the pass, its health drops by the sum of
damage × multiplier over the overlapping bullets and no coin is
dropped; when its health reaches 0 or below, exactly one Coin is
dropped at the boss position, the boss reference and `boss_spawned`
are cleared (ending the encounter), and the remaining bullets are not
checked that frame. (`collideBoss` abstracts the rect-overlap test, so
it is assumed to depend only on positions, not on health.) -/
theorem bullet_boss_pass_characterization (mult : ℚ)
    (collideBoss : Bullet → Boss → Bool)
    (hgeom : ∀ (b : Bullet) (bo1 bo2 : Boss), bo1.x = bo2.x → bo1.y = bo2.y →
      collideBoss b bo1 = collideBoss b bo2)
    (bullets : List Bullet) (bo : Boss) :
    (∀ bo1, (bulletBossLoop mult collideBoss bullets bo).1 = some bo1 →
        bo1.x = bo.x ∧ bo1.y = bo.y ∧
        bo1.health = bo.health -
          ((bullets.filter (fun b => collideBoss b bo)).map
            (fun b => b.damage * mult)).sum ∧
        ∀ (sp : Bool) (coins : List Coin),
          checkBulletBossCollisions mult collideBoss bullets (some bo) sp coins =
            (some bo1, sp, coins)) ∧
    ((bulletBossLoop mult collideBoss bullets bo).1 = none →
      ∀ (sp : Bool) (coins : List Coin),
        checkBulletBossCollisions mult collideBoss bullets (some bo) sp coins =
          (none, false, coins ++ [⟨bo.x, bo.y⟩])) := by
  have hspec := bulletBossLoop_spec mult collideBoss hgeom bullets bo
  constructor
  · intro bo1 h
    obtain ⟨hx, hy, hh, _⟩ := hspec.1 bo1 h
    refine ⟨hx, hy, hh, ?_⟩
    intro sp coins
    simp only [checkBulletBossCollisions]
    rcases hox : bulletBossLoop mult collideBoss bullets bo with ⟨o, cs⟩
    rw [hox] at h
    cases o with
    | none => simp at h
    | some bo2 =>
      simp only [Option.some.injEq] at h
      subst h
      rfl
  · intro h sp coins
    have hc := hspec.2 h
    simp only [checkBulletBossCollisions]
    rcases hox : bulletBossLoop mult collideBoss bullets bo with ⟨o, cs⟩
    rw [hox] at h hc
    cases o with
    | none => simp at hc ⊢; exact hc
    | some bo2 => simp at h

/-- A concrete damage-1 bullet used to witness the bullet-boss pass
characterization. -/
def cexBullet : Bullet :=
  { x := 0, y := 0, vx := 0, vy := 0, size := 10, damage := 1,
    pierce_count := 0, max_pierce := 0, hit_enemies := ∅ }

/-- Witness for the amended C2 statement: one damage-1 bullet against
a fresh boss leaves it alive at 1999 health, drops no coin and keeps
the flags. -/
theorem bullet_boss_pass_characterization_witness :
    ∃ bo1 : Boss,
      (bulletBossLoop 1 (fun _ _ => true) [cexBullet] (mkBoss 0 0)).1 =
        some bo1 ∧
      bo1.health = (mkBoss 0 0).health -
        ((([cexBullet] : List Bullet).filter
            (fun b => (fun _ _ => true : Bullet → Boss → Bool) b (mkBoss 0 0))).map
          (fun b => b.damage * 1)).sum ∧
      checkBulletBossCollisions 1 (fun _ _ => true) [cexBullet]
        (some (mkBoss 0 0)) true [] =
        (some bo1, true, []) := by
  have hsome : (bulletBossLoop 1 (fun _ _ => true) [cexBullet] (mkBoss 0 0)).1 =
      some { mkBoss 0 0 with health := 1999 } := by
    norm_num [bulletBossLoop, bossTakeDamage, mkBoss, cexBullet]
  have h := (bullet_boss_pass_characterization 1 (fun _ _ => true)
    (fun _ _ _ _ _ => rfl) [cexBullet] (mkBoss 0 0)).1 _ hsome
  exact ⟨{ mkBoss 0 0 with health := 1999 }, hsome, h.2.2.1, h.2.2.2 true []⟩

/-- Iterated frames of the enemy spawner (one `Game.spawn_enemies`
call per frame, as made by `Game.update`). -/
def spawnFrames (W H MARGIN : ℤ) (enemy_speed : ℚ) (rng : ℕ → SpawnChoice) :
    ℕ → GameState × ℕ → GameState × ℕ
  | 0, s => s
  | n + 1, s =>
    spawnFrames W H MARGIN enemy_speed rng n
      (spawnEnemies W H MARGIN enemy_speed rng s.1 s.2)

set_option maxRecDepth 4000 in
/-- C3 counterexample: with `enemy_spawn_interval = 60` and
`enemies_per_spawn = 2`, the timer is incremented twice per frame, so
the first batch (2 enemies) appears after 30 frames, not 60: the
spawn cadence is not independent of `enemies_per_spawn`. -/
theorem enemy_spawn_interval_counterexample :
    ((spawnFrames 800 600 20 1 (fun _ => ⟨0, 0⟩) 29
        ({ initGameState 5 800 600 with enemies_per_spawn := 2 }, 0)).1.enemies.length = 0) ∧
    ((spawnFrames 800 600 20 1 (fun _ => ⟨0, 0⟩) 30
        ({ initGameState 5 800 600 with enemies_per_spawn := 2 }, 0)).1.enemies.length = 2) ∧
    (30 : ℕ) <
      { initGameState 5 800 600 with enemies_per_spawn := 2 }.enemy_spawn_interval := by
  refine ⟨?_, ?_, ?_⟩ <;> decide

theorem spawnSteps_no_cross (W H MARGIN : ℤ) (enemy_speed : ℚ)
    (rng : ℕ → SpawnChoice) (interval eps : ℕ) (mult : ℚ) :
    ∀ (n : ℕ) (s : SpawnSt), s.timer + n < interval →
      spawnSteps W H MARGIN enemy_speed rng interval eps mult n s =
        ⟨s.timer + n, s.enemies, s.rix⟩ := by
  intro n
  induction n with
  | zero => intro s h; simp [spawnSteps]
  | succ n ih =>
    intro s h
    rw [spawnSteps, if_neg (by omega)]
    rw [ih ⟨s.timer + 1, s.enemies, s.rix⟩ (by simp; omega)]
    simp [SpawnSt.mk.injEq]
    omega

theorem spawnSteps_cross (W H MARGIN : ℤ) (enemy_speed : ℚ)
    (rng : ℕ → SpawnChoice) (interval eps : ℕ) (mult : ℚ) :
    ∀ (n : ℕ) (s : SpawnSt), s.timer < interval → interval ≤ s.timer + n →
      n ≤ interval →
      spawnSteps W H MARGIN enemy_speed rng interval eps mult n s =
        ⟨s.timer + n - interval,
         s.enemies ++ spawnBatch W H MARGIN enemy_speed rng mult eps s.rix,
         s.rix + eps⟩ := by
  intro n
  induction n with
  | zero => intro s h1 h2 h3; omega
  | succ n ih =>
    intro s h1 h2 h3
    by_cases hc : s.timer + 1 ≥ interval
    · have ht : s.timer = interval - 1 := by omega
      rw [spawnSteps, if_pos hc]
      rw [spawnSteps_no_cross W H MARGIN enemy_speed rng interval eps mult n
        ⟨0, s.enemies ++ spawnBatch W H MARGIN enemy_speed rng mult eps s.rix,
         s.rix + eps⟩ (by simp; omega)]
      simp [SpawnSt.mk.injEq]
      omega
    · rw [spawnSteps, if_neg hc]
      rw [ih ⟨s.timer + 1, s.enemies, s.rix⟩ (by simp; omega) (by simp; omega)
        (by omega)]
      simp [SpawnSt.mk.injEq]
      omega

/-- C3 amended: `Game.spawn_enemies` is not a plain fixed-interval
timer: the outer loop increments the timer `enemies_per_spawn` times
per frame, so (for `enemies_per_spawn <= enemy_spawn_interval`) a
batch of `enemies_per_spawn` enemies — each placed just outside a
chosen screen edge and constructed with the current difficulty health
multiplier — is emitted whenever the timer crosses the interval,
i.e. roughly every `interval / enemies_per_spawn` frames rather than
every `interval` frames; and no enemy spawns on any frame while a boss
is active. -/
theorem spawn_enemies_characterization (W H MARGIN : ℤ) (enemy_speed : ℚ)
    (rng : ℕ → SpawnChoice) (g : GameState) (rix : ℕ) :
    (g.boss_spawned = true →
      spawnEnemies W H MARGIN enemy_speed rng g rix = (g, rix)) ∧
    (g.boss_spawned = false →
      g.enemy_spawn_timer + g.enemies_per_spawn < g.enemy_spawn_interval →
      spawnEnemies W H MARGIN enemy_speed rng g rix =
        ({ g with enemy_spawn_timer :=
            g.enemy_spawn_timer + g.enemies_per_spawn }, rix)) ∧
    (g.boss_spawned = false →
      g.enemy_spawn_timer < g.enemy_spawn_interval →
      g.enemy_spawn_interval ≤ g.enemy_spawn_timer + g.enemies_per_spawn →
      g.enemies_per_spawn ≤ g.enemy_spawn_interval →
      spawnEnemies W H MARGIN enemy_speed rng g rix =
        ({ g with
            enemy_spawn_timer :=
              g.enemy_spawn_timer + g.enemies_per_spawn -
                g.enemy_spawn_interval,
            enemies := g.enemies ++ spawnBatch W H MARGIN enemy_speed rng
              g.enemy_health_multiplier g.enemies_per_spawn rix },
          rix + g.enemies_per_spawn)) := by
  refine ⟨fun hb => ?_, fun hb h => ?_, fun hb h1 h2 h3 => ?_⟩
  · simp [spawnEnemies, hb]
  · simp only [spawnEnemies, hb, Bool.not_false, if_true]
    rw [spawnSteps_no_cross W H MARGIN enemy_speed rng g.enemy_spawn_interval
      g.enemies_per_spawn g.enemy_health_multiplier g.enemies_per_spawn
      ⟨g.enemy_spawn_timer, g.enemies, rix⟩ h]
  · simp only [spawnEnemies, hb, Bool.not_false, if_true]
    rw [spawnSteps_cross W H MARGIN enemy_speed rng g.enemy_spawn_interval
      g.enemies_per_spawn g.enemy_health_multiplier g.enemies_per_spawn
      ⟨g.enemy_spawn_timer, g.enemies, rix⟩ h1 h2 h3]

/-- Witness for the amended C3 statement: in the initial state (timer
0, one enemy per spawn, interval 60) a frame just advances the timer
to 1 and spawns nothing. -/
theorem spawn_enemies_characterization_witness :
    spawnEnemies 800 600 20 1 (fun _ => ⟨0, 0⟩) (initGameState 5 800 600) 0 =
      ({ initGameState 5 800 600 with enemy_spawn_timer :=
          (initGameState 5 800 600).enemy_spawn_timer +
            (initGameState 5 800 600).enemies_per_spawn }, 0) :=
  (spawn_enemies_characterization 800 600 20 1 (fun _ => ⟨0, 0⟩)
    (initGameState 5 800 600) 0).2.1 rfl (by decide)

theorem hitEnemiesLoop_bullet (mult : ℚ) (collide : Bullet → Enemy → Bool)
    (drop : ℕ → Bool) :
    ∀ (es : List Enemy) (b : Bullet) (rix : ℕ),
      (hitEnemiesLoop mult collide drop b es rix).bullet.damage = b.damage ∧
      (hitEnemiesLoop mult collide drop b es rix).bullet.x = b.x ∧
      (hitEnemiesLoop mult collide drop b es rix).bullet.y = b.y ∧
      (hitEnemiesLoop mult collide drop b es rix).bullet.size = b.size ∧
      (hitEnemiesLoop mult collide drop b es rix).bullet.max_pierce =
        b.max_pierce ∧
      b.hit_enemies ⊆
        (hitEnemiesLoop mult collide drop b es rix).bullet.hit_enemies := by
  intro es
  induction es with
  | nil =>
    intro b rix
    exact ⟨rfl, rfl, rfl, rfl, rfl, Finset.Subset.refl _⟩
  | cons e es ih =>
    intro b rix
    by_cases hc : (collide b e && canHitEnemy b e.eid) = true
    · simp only [hitEnemiesLoop, hc, if_true, enemyTakeDamage]
      by_cases hp : b.pierce_count + 1 > b.max_pierce
      · simp [hp, Finset.subset_insert]
      · simp only [hp, if_false]
        refine ⟨(ih _ _).1, (ih _ _).2.1, (ih _ _).2.2.1, (ih _ _).2.2.2.1,
          (ih _ _).2.2.2.2.1, Finset.Subset.trans (Finset.subset_insert _ _)
            ((ih { b with hit_enemies := insert e.eid b.hit_enemies,
                          pierce_count := b.pierce_count + 1 }
              (if decide (e.health - b.damage * mult ≤ 0) = true then rix + 1
               else rix)).2.2.2.2.2)⟩
    · simp only [hitEnemiesLoop, hc, if_false]
      exact ih b rix

/-- Per-enemy outcome of processing one bullet over the enemy list in
`Game.check_bullet_enemy_collisions`: the enemy is either left
untouched, or (only when its identity was not yet in the bullet's hit
set) damaged exactly once and recorded in the bullet's final hit
set. -/
def HitOutcome (dmg : ℚ) (hit0 hit1 : Finset ℕ) (e e' : Enemy) : Prop :=
  e' = e ∨
  (e.eid ∉ hit0 ∧ e' = { e with health := e.health - dmg } ∧ e.eid ∈ hit1)

theorem hitOutcome_mono {dmg : ℚ} {hit0 hit0' hit1 hit1' : Finset ℕ}
    {e e' : Enemy} (h : HitOutcome dmg hit0' hit1 e e')
    (h0 : hit0 ⊆ hit0') (h1 : hit1 ⊆ hit1') :
    HitOutcome dmg hit0 hit1' e e' := by
  rcases h with h | ⟨ha, hb, hc⟩
  · exact Or.inl h
  · exact Or.inr ⟨fun hx => ha (h0 hx), hb, h1 hc⟩

theorem hitEnemiesLoop_outcome (mult : ℚ) (collide : Bullet → Enemy → Bool)
    (drop : ℕ → Bool) :
    ∀ (es : List Enemy) (b : Bullet) (rix : ℕ),
      List.Forall₂
        (HitOutcome (b.damage * mult) b.hit_enemies
          (hitEnemiesLoop mult collide drop b es rix).bullet.hit_enemies)
        es (hitEnemiesLoop mult collide drop b es rix).enemies := by
  intro es
  induction es with
  | nil => intro b rix; exact List.Forall₂.nil
  | cons e es ih =>
    intro b rix
    by_cases hc : (collide b e && canHitEnemy b e.eid) = true
    · have hcan : e.eid ∉ b.hit_enemies := by
        have := (Bool.and_elim_right hc)
        simpa [canHitEnemy] using this
      simp only [hitEnemiesLoop, hc, if_true, enemyTakeDamage]
      by_cases hp : b.pierce_count + 1 > b.max_pierce
      · simp only [hp, if_true]
        refine List.Forall₂.cons (Or.inr ⟨hcan, rfl, ?_⟩) ?_
        · exact Finset.mem_insert_self _ _
        · exact List.forall₂_same.mpr (fun e' _ => Or.inl rfl)
      · simp only [hp, if_false]
        have hmono := (hitEnemiesLoop_bullet mult collide drop es
          { b with hit_enemies := insert e.eid b.hit_enemies,
                   pierce_count := b.pierce_count + 1 }
          (if decide (e.health - b.damage * mult ≤ 0) = true then rix + 1
           else rix)).2.2.2.2.2
        refine List.Forall₂.cons
          (Or.inr ⟨hcan, rfl, hmono (Finset.mem_insert_self _ _)⟩) ?_
        have htail := ih
          { b with hit_enemies := insert e.eid b.hit_enemies,
                   pierce_count := b.pierce_count + 1 }
          (if decide (e.health - b.damage * mult ≤ 0) = true then rix + 1
           else rix)
        exact List.Forall₂.imp (fun _ _ h =>
          hitOutcome_mono h (Finset.subset_insert _ _) (Finset.Subset.refl _))
          htail
    · simp only [hitEnemiesLoop, hc, if_false]
      exact List.Forall₂.cons (Or.inl rfl) (ih b rix)

theorem forall2_mem_right {α β : Type} {R : α → β → Prop} :
    ∀ {l1 : List α} {l2 : List β}, List.Forall₂ R l1 l2 →
      ∀ y ∈ l2, ∃ x ∈ l1, R x y := by
  intro l1 l2 h
  induction h with
  | nil => intro y hy; cases hy
  | @cons a b l1' l2' hr _ ih =>
    intro y hy
    rcases List.mem_cons.mp hy with hy | hy
    · exact ⟨a, List.mem_cons_self _ _, by rwa [hy]⟩
    · obtain ⟨x, hx, hr'⟩ := ih y hy
      exact ⟨x, List.mem_cons_of_mem _ hx, hr'⟩

theorem checkBulletEnemyCollisions_nil (mult : ℚ)
    (collide : Bullet → Enemy → Bool) (drop : ℕ → Bool) (es : List Enemy)
    (rix : ℕ) :
    checkBulletEnemyCollisions mult collide drop [] es rix =
      ⟨[], es, [], [], [], rix⟩ := by
  simp [checkBulletEnemyCollisions, bulletsLoop, List.filter_eq_self]

theorem checkBulletEnemyCollisions_single (mult : ℚ)
    (collide : Bullet → Enemy → Bool) (drop : ℕ → Bool) (b : Bullet)
    (es : List Enemy) (rix : ℕ) :
    checkBulletEnemyCollisions mult collide drop [b] es rix =
      { bullets :=
          (if (hitEnemiesLoop mult collide drop b es rix).removed then []
           else [(hitEnemiesLoop mult collide drop b es rix).bullet]),
        enemies := (hitEnemiesLoop mult collide drop b es rix).enemies.filter
          (fun e => decide (e.eid ∉ (hitEnemiesLoop mult collide drop b es rix).dead)),
        dead := (hitEnemiesLoop mult collide drop b es rix).dead,
        coins := (hitEnemiesLoop mult collide drop b es rix).coins,
        healthpacks := (hitEnemiesLoop mult collide drop b es rix).healthpacks,
        rix := (hitEnemiesLoop mult collide drop b es rix).rix } := by
  simp [checkBulletEnemyCollisions, bulletsLoop]

/-- Iterated frames of the bullet-enemy collision pass (the only place
in the sources where player bullets damage enemies); the per-frame
overlap relation `collideSeq` is arbitrary, reflecting arbitrary
entity movement between frames. -/
def bulletEnemyFrames (mult : ℚ) (collideSeq : ℕ → Bullet → Enemy → Bool)
    (drop : ℕ → Bool) :
    ℕ → List Bullet × List Enemy × ℕ → List Bullet × List Enemy × ℕ
  | 0, s => s
  | n + 1, s =>
    let r := checkBulletEnemyCollisions mult (collideSeq n) drop s.1 s.2.1 s.2.2
    bulletEnemyFrames mult collideSeq drop n (r.bullets, r.enemies, r.rix)

/-- Invariant carried across frames by a single-bullet system: the
bullet list holds at most the one (mutated) bullet, and every enemy is
either undamaged or damaged exactly once, in which case the surviving
bullet has its identity in the hit set. -/
def SingleInv (mult : ℚ) (b0 : Bullet) (es0 : List Enemy)
    (bs : List Bullet) (es : List Enemy) : Prop :=
  (bs = [] ∨ ∃ b', bs = [b'] ∧ b'.damage = b0.damage) ∧
  (∀ e' ∈ es, ∃ e ∈ es0, e.eid = e'.eid ∧
    (e'.health = e.health ∨
      (e'.health = e.health - b0.damage * mult ∧
       ∀ b' ∈ bs, e'.eid ∈ b'.hit_enemies)))

theorem pass_preserves_singleInv (mult : ℚ) (collide : Bullet → Enemy → Bool)
    (drop : ℕ → Bool) (b0 : Bullet) (es0 : List Enemy) (bs : List Bullet)
    (es : List Enemy) (rix : ℕ) (h : SingleInv mult b0 es0 bs es) :
    SingleInv mult b0 es0
      (checkBulletEnemyCollisions mult collide drop bs es rix).bullets
      (checkBulletEnemyCollisions mult collide drop bs es rix).enemies := by
  obtain ⟨hbs, hes⟩ := h
  rcases hbs with hbs | ⟨b', hbs, hbd⟩
  · subst hbs
    rw [checkBulletEnemyCollisions_nil]
    refine ⟨Or.inl rfl, ?_⟩
    intro e' he'
    obtain ⟨e, he, heid, hcase⟩ := hes e' he'
    refine ⟨e, he, heid, ?_⟩
    rcases hcase with hcase | ⟨hcase, _⟩
    · exact Or.inl hcase
    · exact Or.inr ⟨hcase, by intro b' hb'; cases hb'⟩
  · subst hbs
    rw [checkBulletEnemyCollisions_single]
    dsimp only
    have hfields := hitEnemiesLoop_bullet mult collide drop es b' rix
    have houtcome := hitEnemiesLoop_outcome mult collide drop es b' rix
    constructor
    · by_cases hr : (hitEnemiesLoop mult collide drop b' es rix).removed
      · simp [hr]
      · simp only [hr, if_false]
        exact Or.inr ⟨_, rfl, hfields.1.trans hbd⟩
    · intro e'' he''
      have he''mem : e'' ∈ (hitEnemiesLoop mult collide drop b' es rix).enemies :=
        List.mem_of_mem_filter he''
      obtain ⟨e', he', hout⟩ := forall2_mem_right houtcome e'' he''mem
      obtain ⟨e, he, heid, hcase⟩ := hes e' he'
      rcases hout with hout | ⟨hfresh, hdmg, hrec⟩
      · subst hout
        refine ⟨e, he, heid, ?_⟩
        rcases hcase with hcase | ⟨hcase, hblock⟩
        · exact Or.inl hcase
        · refine Or.inr ⟨hcase, ?_⟩
          intro b'' hb''
          by_cases hr : (hitEnemiesLoop mult collide drop b' es rix).removed
          · simp [hr] at hb''
          · rw [if_neg hr] at hb''
            rw [List.mem_singleton.mp hb'']
            exact hfields.2.2.2.2.2 (hblock b' (List.mem_singleton_self _))
      · rcases hcase with hcase | ⟨_, hblock⟩
        · refine ⟨e, he, ?_, ?_⟩
          · rw [heid, hdmg]
          · refine Or.inr ⟨?_, ?_⟩
            · rw [hdmg]
              simp only [Enemy.mk.injEq]
              rw [hcase, hbd]
            · intro b'' hb''
              by_cases hr : (hitEnemiesLoop mult collide drop b' es rix).removed
              · simp [hr] at hb''
              · rw [if_neg hr] at hb''
                rw [List.mem_singleton.mp hb'', hdmg]
                exact hrec
        · exact absurd (hblock b' (List.mem_singleton_self _)) hfresh

theorem hitEnemiesLoop_skip (mult : ℚ) (collide : Bullet → Enemy → Bool)
    (drop : ℕ → Bool) :
    ∀ (pre rest : List Enemy) (b : Bullet) (rix : ℕ),
      (∀ e ∈ pre, collide b e = false) →
      hitEnemiesLoop mult collide drop b (pre ++ rest) rix =
        { hitEnemiesLoop mult collide drop b rest rix with
          enemies := pre ++ (hitEnemiesLoop mult collide drop b rest rix).enemies } := by
  intro pre
  induction pre with
  | nil => intro rest b rix _; simp
  | cons e pre ih =>
    intro rest b rix h
    have hce : collide b e = false := h e (List.mem_cons_self _ _)
    have hc : (collide b e && canHitEnemy b e.eid) = false := by simp [hce]
    simp only [List.cons_append, hitEnemiesLoop, hc, Bool.false_eq_true,
      if_false, List.append_eq]
    rw [ih rest b rix (fun e' he' => h e' (List.mem_cons_of_mem _ he'))]

/-- The geometric character of the abstracted rect-overlap test: it
reads only the bullet's position and size (which the collision pass
never changes), not its hit set or pierce counter. -/
def CollideGeometric (collide : Bullet → Enemy → Bool) : Prop :=
  ∀ (b1 b2 : Bullet) (e : Enemy), b1.x = b2.x → b1.y = b2.y →
    b1.size = b2.size → collide b1 e = collide b2 e

theorem single_bullet_two_hit_pass (mult : ℚ) (collide : Bullet → Enemy → Bool)
    (drop : ℕ → Bool) (b : Bullet) (e1 e2 : Enemy)
    (pre mid post : List Enemy) (rix : ℕ)
    (hgeom : CollideGeometric collide)
    (hmax : b.max_pierce = 1) (hpc : b.pierce_count = 0)
    (hhit : b.hit_enemies = ∅) (hne : e1.eid ≠ e2.eid)
    (hc1 : collide b e1 = true) (hc2 : collide b e2 = true)
    (hpre : ∀ e ∈ pre, collide b e = false)
    (hmid : ∀ e ∈ mid, collide b e = false) :
    (hitEnemiesLoop mult collide drop b
        (pre ++ e1 :: (mid ++ e2 :: post)) rix).removed = true ∧
    (hitEnemiesLoop mult collide drop b
        (pre ++ e1 :: (mid ++ e2 :: post)) rix).enemies =
      pre ++ { e1 with health := e1.health - b.damage * mult } ::
        (mid ++ { e2 with health := e2.health - b.damage * mult } :: post) := by
  have hmid' : ∀ e ∈ mid,
      collide { b with hit_enemies := insert e1.eid b.hit_enemies,
                       pierce_count := b.pierce_count + 1 } e = false := by
    intro e he
    rw [hgeom { b with hit_enemies := insert e1.eid b.hit_enemies,
                       pierce_count := b.pierce_count + 1 } b e rfl rfl rfl]
    exact hmid e he
  have hc1' : (collide b e1 && canHitEnemy b e1.eid) = true := by
    simp [hc1, canHitEnemy, hhit]
  have hc2' : (collide { b with hit_enemies := insert e1.eid b.hit_enemies,
                                pierce_count := b.pierce_count + 1 } e2 &&
      canHitEnemy { b with hit_enemies := insert e1.eid b.hit_enemies,
                           pierce_count := b.pierce_count + 1 } e2.eid) = true := by
    rw [hgeom { b with hit_enemies := insert e1.eid b.hit_enemies,
                       pierce_count := b.pierce_count + 1 } b e2 rfl rfl rfl]
    simp only [hc2, canHitEnemy, hhit, Bool.true_and, decide_eq_true_eq,
      Finset.mem_insert, Finset.not_mem_empty, or_false]
    exact fun h => hne h.symm
  have hp1 : ¬ (b.pierce_count + 1 > b.max_pierce) := by omega
  have hp2 : b.pierce_count + 1 + 1 > b.max_pierce := by omega
  rw [hitEnemiesLoop_skip mult collide drop pre (e1 :: (mid ++ e2 :: post))
    b rix hpre]
  dsimp only
  simp only [hitEnemiesLoop, hc1', if_true, enemyTakeDamage]
  dsimp only
  rw [if_neg hp1]
  rw [hitEnemiesLoop_skip mult collide drop mid (e2 :: post) _ _ hmid']
  dsimp only
  simp only [hitEnemiesLoop, hc2', if_true, enemyTakeDamage]
  dsimp only
  rw [if_pos hp2]
  exact ⟨rfl, rfl⟩

theorem frames_preserve_singleInv (mult : ℚ)
    (collideSeq : ℕ → Bullet → Enemy → Bool) (drop : ℕ → Bool) (b0 : Bullet)
    (es0 : List Enemy) :
    ∀ (k : ℕ) (bs : List Bullet) (es : List Enemy) (rix : ℕ),
      SingleInv mult b0 es0 bs es →
      SingleInv mult b0 es0
        (bulletEnemyFrames mult collideSeq drop k (bs, es, rix)).1
        (bulletEnemyFrames mult collideSeq drop k (bs, es, rix)).2.1 := by
  intro k
  induction k with
  | zero => intro bs es rix h; exact h
  | succ k ih =>
    intro bs es rix h
    simp only [bulletEnemyFrames]
    exact ih _ _ _
      (pass_preserves_singleInv mult (collideSeq k) drop b0 es0 bs es rix h)

theorem bulletsLoop_single_enemies (mult : ℚ)
    (collide : Bullet → Enemy → Bool) (drop : ℕ → Bool) (b : Bullet)
    (es : List Enemy) (rix : ℕ) :
    (bulletsLoop mult collide drop [b] es rix).enemies =
      (hitEnemiesLoop mult collide drop b es rix).enemies := by
  simp [bulletsLoop]

/-- C6: pierce bookkeeping of `Game.check_bullet_enemy_collisions`.
First part: a fresh bullet with `max_pierce = 1` overlapping two
distinct enemies in the same frame (and no enemy before or between
them) damages each of the two exactly once — by damage × multiplier —
and is then removed from the player's bullet list. Second part: across
any number of frames of the collision pass, with arbitrary per-frame
overlap (entities move between frames), a bullet never damages the
same enemy twice: in a single-bullet system every enemy still present
ends with its health either untouched or reduced exactly once, the
per-bullet hit set blocking repeat hits. -/
theorem bullet_pierce_no_double_damage :
    (∀ (mult : ℚ) (collide : Bullet → Enemy → Bool) (drop : ℕ → Bool)
       (b : Bullet) (e1 e2 : Enemy) (pre mid post : List Enemy) (rix : ℕ),
       CollideGeometric collide →
       b.max_pierce = 1 → b.pierce_count = 0 → b.hit_enemies = ∅ →
       e1.eid ≠ e2.eid → collide b e1 = true → collide b e2 = true →
       (∀ e ∈ pre, collide b e = false) → (∀ e ∈ mid, collide b e = false) →
       (checkBulletEnemyCollisions mult collide drop [b]
           (pre ++ e1 :: (mid ++ e2 :: post)) rix).bullets = [] ∧
       (bulletsLoop mult collide drop [b]
           (pre ++ e1 :: (mid ++ e2 :: post)) rix).enemies =
         pre ++ { e1 with health := e1.health - b.damage * mult } ::
           (mid ++ { e2 with health := e2.health - b.damage * mult } :: post)) ∧
    (∀ (mult : ℚ) (collideSeq : ℕ → Bullet → Enemy → Bool) (drop : ℕ → Bool)
       (k : ℕ) (b : Bullet) (es : List Enemy) (rix : ℕ),
       ∀ e' ∈ (bulletEnemyFrames mult collideSeq drop k ([b], es, rix)).2.1,
         ∃ e ∈ es, e.eid = e'.eid ∧
           (e'.health = e.health ∨ e'.health = e.health - b.damage * mult)) := by
  constructor
  · intro mult collide drop b e1 e2 pre mid post rix hgeom hmax hpc hhit hne
      hc1 hc2 hpre hmid
    obtain ⟨hrem, hens⟩ := single_bullet_two_hit_pass mult collide drop b e1 e2
      pre mid post rix hgeom hmax hpc hhit hne hc1 hc2 hpre hmid
    constructor
    · rw [checkBulletEnemyCollisions_single]
      dsimp only
      rw [hrem]
      rfl
    · rw [bulletsLoop_single_enemies, hens]
  · intro mult collideSeq drop k b es rix e' he'
    have hinv : SingleInv mult b es [b] es := by
      refine ⟨Or.inr ⟨b, rfl, rfl⟩, ?_⟩
      intro e' he'
      exact ⟨e', he', rfl, Or.inl rfl⟩
    obtain ⟨e, he, heid, hcase⟩ :=
      (frames_preserve_singleInv mult collideSeq drop b es k [b] es rix hinv).2
        e' he'
    refine ⟨e, he, heid, ?_⟩
    rcases hcase with hcase | ⟨hcase, _⟩
    · exact Or.inl hcase
    · exact Or.inr hcase

/-- A fresh damage-1 bullet with one point of pierce, used to witness
the pierce bookkeeping. -/
def pierceBullet : Bullet :=
  { x := 0, y := 0, vx := 0, vy := 0, size := 10, damage := 1,
    pierce_count := 0, max_pierce := 1, hit_enemies := ∅ }

/-- Witness for C6: the `max_pierce = 1` bullet overlapping two
distinct enemies damages both once each and is removed. -/
theorem bullet_pierce_no_double_damage_witness :
    (checkBulletEnemyCollisions 1 (fun _ _ => true) (fun _ => false)
        [pierceBullet]
        ([] ++ mkEnemy 1 0 0 1 1 :: ([] ++ mkEnemy 2 3 4 1 1 :: [])) 0).bullets =
      [] ∧
    (bulletsLoop 1 (fun _ _ => true) (fun _ => false) [pierceBullet]
        ([] ++ mkEnemy 1 0 0 1 1 :: ([] ++ mkEnemy 2 3 4 1 1 :: [])) 0).enemies =
      [] ++ { mkEnemy 1 0 0 1 1 with
              health := (mkEnemy 1 0 0 1 1).health - pierceBullet.damage * 1 } ::
        ([] ++ { mkEnemy 2 3 4 1 1 with
                 health := (mkEnemy 2 3 4 1 1).health - pierceBullet.damage * 1 }
          :: []) :=
  bullet_pierce_no_double_damage.1 1 (fun _ _ => true) (fun _ => false)
    pierceBullet (mkEnemy 1 0 0 1 1) (mkEnemy 2 3 4 1 1) [] [] [] 0
    (fun _ _ _ _ _ _ => rfl) rfl rfl rfl (by decide) rfl rfl
    (fun e he => absurd he (List.not_mem_nil e))
    (fun e he => absurd he (List.not_mem_nil e))
